import Mathlib

/-!
cherry3-lite: the key-value facade over the document store

A shallow embedding of `src/index.js` (the facade: `set`, `get`, `fetch`,
`delete`, `has`, `type`, `add`, `sub`, `inc`, `dec`, `all`, `fetchAll`, `push`,
`pull`) and of the model declared in `src/src/service.js`.

* JavaScript values are the inductive type `Value`; numbers are exact integers.
* Every facade operation is a function `Store → Except CherryError α × Store`:
  the result (or the raised error) paired with the store after the call.
* The document store itself (`findOne`, `findOneAndUpdate`, `findOneAndDelete`,
  `allRows`) belongs to the `cherry3` package and is not among the sources; it
  is modelled from the specification as a list of records.
-/

namespace Cherry

/-! ## JavaScript values -/

/-- A JavaScript value, as far as the facade can observe one. -/
inductive Value where
  | undefined
  | null
  | bool (b : Bool)
  | num (n : Int)
  | str (s : String)
  | arr (items : List Value)
  | obj (fields : List (String × Value))

mutual
/-- Structural equality of values. -/
def Value.beq : Value → Value → Bool
  | .undefined, .undefined => true
  | .null, .null => true
  | .bool a, .bool b => a == b
  | .num a, .num b => a == b
  | .str a, .str b => a == b
  | .arr a, .arr b => Value.beqList a b
  | .obj a, .obj b => Value.beqFields a b
  | _, _ => false
/-- Structural equality of arrays, element by element. -/
def Value.beqList : List Value → List Value → Bool
  | [], [] => true
  | x :: xs, y :: ys => Value.beq x y && Value.beqList xs ys
  | _, _ => false
/-- Structural equality of objects, property by property. -/
def Value.beqFields : List (String × Value) → List (String × Value) → Bool
  | [], [] => true
  | (k, x) :: xs, (l, y) :: ys => k == l && Value.beq x y && Value.beqFields xs ys
  | _, _ => false
end

/-- JavaScript truthiness: what `if (v)` tests, and what `!v` negates. -/
def Value.truthy : Value → Bool
  | .undefined => false
  | .null => false
  | .bool b => b
  | .num n => n != 0
  | .str s => s != ""
  | .arr _ => true
  | .obj _ => true

/-- The JavaScript `typeof` operator. -/
def Value.typeof : Value → String
  | .undefined => "undefined"
  | .null => "object"
  | .bool _ => "boolean"
  | .num _ => "number"
  | .str _ => "string"
  | .arr _ => "object"
  | .obj _ => "object"

/-- The JavaScript `Array.isArray`. -/
def Value.isArray : Value → Bool
  | .arr _ => true
  | _ => false

/-! ## Errors -/

/-- The error object `new CherryError(message, kind)`. -/
structure CherryError where
  message : String
  kind : String
  deriving DecidableEq, Repr

/-- The handler `catch (error) { throw new CherryError(error.message, 'error') }`
that closes every operation. -/
def rethrow (e : CherryError) : CherryError :=
  ⟨e.message, "error"⟩

/-! ## The document store -/

/-- A document of the model `@core` of `src/src/service.js`: a `key` and a
`value`. The timestamps the store maintains are not read by the facade and are
left out. -/
structure Record where
  key : String
  value : Value

/-- The collection behind the model: its documents, in insertion order. -/
abbrev Store := List Record

/-- The update document of `findOneAndUpdate`: `{ $set: { value } }` or
`{ $pull: { value: values } }`. -/
inductive Update where
  | set (value : Value)
  | pull (values : List Value)

/-- Modelled from the spec: the update operators of the external store, which
is not among the sources. `$set` replaces the value; `$pull` removes from an
array value the elements equal to one of the given values, and leaves a value
that is not an array as it is. -/
def Update.apply : Update → Value → Value
  | .set v, _ => v
  | .pull vs, .arr xs => .arr (xs.filter fun x => !(vs.any fun v => Value.beq x v))
  | .pull _, v => v

/-- Modelled from the spec: `findOne({ key })` of the external store, the first
document whose key matches, if there is one. -/
def findOne (key : String) : Store → Option Record
  | [] => none
  | r :: rs => if r.key = key then some r else findOne key rs

/-- Modelled from the spec: `findOneAndUpdate({ key }, update, { $upsert })` of
the external store. The first document whose key matches is updated; when none
matches and the upsert option is set, a document is inserted, the update
applied to the schema default `null`. -/
def findOneAndUpdate (key : String) (u : Update) (upsert : Bool) : Store → Store
  | [] => if upsert then [⟨key, u.apply .null⟩] else []
  | r :: rs =>
    if r.key = key then ⟨r.key, u.apply r.value⟩ :: rs
    else r :: findOneAndUpdate key u upsert rs

/-- Modelled from the spec: `findOneAndDelete({ key })` of the external store,
which removes the first document whose key matches. -/
def findOneAndDelete (key : String) : Store → Store
  | [] => []
  | r :: rs => if r.key = key then rs else r :: findOneAndDelete key rs

/-- Modelled from the spec: the paginated listing `allRows({ $limit, $skip })`
of the external store. A numeric `$skip` drops that many documents, a numeric
`$limit` keeps at most that many; a field that is not a number is ignored. -/
def allRows (limit skip : Value) (s : Store) : List Record :=
  let skipped := match skip with
    | .num n => s.drop n.toNat
    | _ => s
  match limit with
  | .num n => skipped.take n.toNat
  | _ => skipped

/-- Number of documents stored under a key. -/
def recordCount (key : String) (s : Store) : Nat :=
  s.countP fun r => decide (r.key = key)

/-! ## The facade (`src/index.js`) -/

/-- The outcome of a call: the value returned or the error raised, and the
store after the call. -/
abbrev Result (α : Type) := Except CherryError α × Store

/-- The two guards on `key` that open every keyed operation:
`if (!key) throw ...; if (typeof key !== 'string') throw ...`. -/
def checkKey (key : Value) : Except CherryError String :=
  if !key.truthy then .error ⟨"key is required", "error"⟩
  else match key with
    | .str k => .ok k
    | _ => .error ⟨"key must be a string", "error"⟩

/-- The two guards on `value` of `add` and `sub`:
`if (!value) throw ...; if (typeof value !== 'number') throw ...`. -/
def checkNumber (value : Value) : Except CherryError Int :=
  if !value.truthy then .error ⟨"Value is required", "error"⟩
  else match value with
    | .num n => .ok n
    | _ => .error ⟨"Value must be a number", "error"⟩

/-- The operation `get` (index.js 69-80). -/
def get (key : Value) (s : Store) : Result Value :=
  match checkKey key with
  | .error e => (.error e, s)
  | .ok k =>
    match findOne k s with
    | none => (.ok .null, s)
    | some data => (.ok data.value, s)

/-- The operation `set` (index.js 39-50). -/
def set (key value : Value) (s : Store) : Result Value :=
  match checkKey key with
  | .error e => (.error e, s)
  | .ok k =>
    let s1 := findOneAndUpdate k (.set value) true s
    match get key s1 with
    | (.ok data, s2) => (.ok data, s2)
    | (.error e, s2) => (.error (rethrow e), s2)

/-- The operation `fetch` (index.js 100-110). -/
def fetch (key : Value) (s : Store) : Result Value :=
  match checkKey key with
  | .error e => (.error e, s)
  | .ok _ =>
    match get key s with
    | (.ok data, s1) => (.ok data, s1)
    | (.error e, s1) => (.error (rethrow e), s1)

/-- The operation `has` (index.js 161-172). -/
def has (key : Value) (s : Store) : Result Bool :=
  match checkKey key with
  | .error e => (.error e, s)
  | .ok _ =>
    match get key s with
    | (.ok data, s1) => if data.truthy then (.ok true, s1) else (.ok false, s1)
    | (.error e, s1) => (.error (rethrow e), s1)

/-- The operation `delete` (index.js 129-142). -/
def delete (key : Value) (s : Store) : Result Bool :=
  match checkKey key with
  | .error e => (.error e, s)
  | .ok k =>
    match has key s with
    | (.ok data, s1) =>
      if !data then (.ok false, s1)
      else (.ok true, findOneAndDelete k s1)
    | (.error e, s1) => (.error (rethrow e), s1)

/-- The operation `type` (index.js 184-196). -/
def type (key : Value) (s : Store) : Result Value :=
  match checkKey key with
  | .error e => (.error e, s)
  | .ok _ =>
    match get key s with
    | (.ok data, s1) =>
      if !data.truthy then (.ok .null, s1) else (.ok (.str data.typeof), s1)
    | (.error e, s1) => (.error (rethrow e), s1)

/-- The operation `add` (index.js 213-232). -/
def add (key value : Value) (s : Store) : Result Value :=
  match checkKey key with
  | .error e => (.error e, s)
  | .ok _ =>
    match checkNumber value with
    | .error e => (.error e, s)
    | .ok v =>
      match get key s with
      | (.error e, s1) => (.error (rethrow e), s1)
      | (.ok data, s1) =>
        if !data.truthy then
          match set key value s1 with
          | (.ok r, s2) => (.ok r, s2)
          | (.error e, s2) => (.error (rethrow e), s2)
        else match data with
          | .num n =>
            let newValue := Value.num (n + v)
            match set key newValue s1 with
            | (.ok _, s2) => (.ok newValue, s2)
            | (.error e, s2) => (.error (rethrow e), s2)
          | _ => (.error (rethrow ⟨"Value must be a number", "error"⟩), s1)

/-- The operation `sub` (index.js 252-269). -/
def sub (key value : Value) (s : Store) : Result Value :=
  match checkKey key with
  | .error e => (.error e, s)
  | .ok _ =>
    match checkNumber value with
    | .error e => (.error e, s)
    | .ok v =>
      match get key s with
      | (.error e, s1) => (.error (rethrow e), s1)
      | (.ok data, s1) =>
        if !data.truthy then
          match set key value s1 with
          | (.ok r, s2) => (.ok r, s2)
          | (.error e, s2) => (.error (rethrow e), s2)
        else match data with
          | .num n =>
            let newValue := Value.num (n - v)
            match set key newValue s1 with
            | (.ok _, s2) => (.ok newValue, s2)
            | (.error e, s2) => (.error (rethrow e), s2)
          | _ => (.error (rethrow ⟨"Value must be a number", "error"⟩), s1)

/-- The operation `inc` (index.js 284-291): `add` behind one more handler. -/
def inc (key value : Value) (s : Store) : Result Value :=
  match add key value s with
  | (.ok data, s1) => (.ok data, s1)
  | (.error e, s1) => (.error (rethrow e), s1)

/-- The operation `dec` (index.js 312-319): `sub` behind one more handler. -/
def dec (key value : Value) (s : Store) : Result Value :=
  match sub key value s with
  | (.ok data, s1) => (.ok data, s1)
  | (.error e, s1) => (.error (rethrow e), s1)

/-- The guard of `all` and `fetchAll` on one pagination field:
`if ($f && typeof $f !== 'number') throw ...`. -/
def checkPage (name : String) (v : Value) : Except CherryError Unit :=
  if v.truthy && v.typeof != "number" then
    .error ⟨name ++ " must be a number", "error"⟩
  else .ok ()

/-- The operation `all` (index.js 340-351); an absent field is `undefined`. -/
def all (limit skip : Value) (s : Store) : Result (List Record) :=
  match checkPage "$limit" limit with
  | .error e => (.error e, s)
  | .ok _ =>
    match checkPage "$skip" skip with
    | .error e => (.error e, s)
    | .ok _ => (.ok (allRows limit skip s), s)

/-- The operation `fetchAll` (index.js 368-378). -/
def fetchAll (limit skip : Value) (s : Store) : Result (List Record) :=
  match checkPage "$limit" limit with
  | .error e => (.error e, s)
  | .ok _ =>
    match checkPage "$skip" skip with
    | .error e => (.error e, s)
    | .ok _ =>
      match all limit skip s with
      | (.ok data, s1) => (.ok data, s1)
      | (.error e, s1) => (.error (rethrow e), s1)

/-- The operation `push` (index.js 397-422). -/
def push (key value : Value) (s : Store) : Result Value :=
  match checkKey key with
  | .error e => (.error e, s)
  | .ok _ =>
    if !value.truthy then (.error ⟨"Value is required", "error"⟩, s)
    else
      match get key s with
      | (.error e, s1) => (.error (rethrow e), s1)
      | (.ok data, s1) =>
        if !data.truthy then
          match set key (.arr [value]) s1 with
          | (.ok r, s2) => (.ok r, s2)
          | (.error e, s2) => (.error (rethrow e), s2)
        else match data with
          | .arr items =>
            let data1 := match value with
              | .arr vs => Value.arr (items ++ vs)
              | _ => Value.arr (items ++ [value])
            match set key data1 s1 with
            | (.ok _, s2) => (.ok data1, s2)
            | (.error e, s2) => (.error (rethrow e), s2)
          | _ => (.error (rethrow ⟨"Value must be an array", "error"⟩), s1)

/-- The loop of `pull` over an array argument: one `$pull` update per element,
in order. -/
def pullEach (k : String) : List Value → Store → Store
  | [], s => s
  | v :: vs, s => pullEach k vs (findOneAndUpdate k (.pull [v]) false s)

/-- The operation `pull` (index.js 443-474). -/
def pull (key value : Value) (s : Store) : Result Value :=
  match checkKey key with
  | .error e => (.error e, s)
  | .ok k =>
    if !value.truthy then (.error ⟨"Value is required", "error"⟩, s)
    else
      match get key s with
      | (.error e, s1) => (.error (rethrow e), s1)
      | (.ok data, s1) =>
        if !data.truthy then (.ok .null, s1)
        else if !data.isArray then
          (.error (rethrow ⟨"Value must be an array", "error"⟩), s1)
        else
          let s2 := match value with
            | .arr vs => pullEach k vs s1
            | _ => findOneAndUpdate k (.pull [value]) false s1
          match get key s2 with
          | (.ok newData, s3) => (.ok newData, s3)
          | (.error e, s3) => (.error (rethrow e), s3)

/-! ## Sequences of facade calls -/

/-- A call of one facade operation with its arguments. -/
inductive Call where
  | set (key value : Value)
  | get (key : Value)
  | fetch (key : Value)
  | delete (key : Value)
  | has (key : Value)
  | type (key : Value)
  | add (key value : Value)
  | sub (key value : Value)
  | inc (key value : Value)
  | dec (key value : Value)
  | all (limit skip : Value)
  | fetchAll (limit skip : Value)
  | push (key value : Value)
  | pull (key value : Value)

/-- The store after a call, whether the call returned or raised. -/
def Call.exec : Call → Store → Store
  | .set k v, s => (Cherry.set k v s).2
  | .get k, s => (Cherry.get k s).2
  | .fetch k, s => (Cherry.fetch k s).2
  | .delete k, s => (Cherry.delete k s).2
  | .has k, s => (Cherry.has k s).2
  | .type k, s => (Cherry.type k s).2
  | .add k v, s => (Cherry.add k v s).2
  | .sub k v, s => (Cherry.sub k v s).2
  | .inc k v, s => (Cherry.inc k v s).2
  | .dec k v, s => (Cherry.dec k v s).2
  | .all l k, s => (Cherry.all l k s).2
  | .fetchAll l k, s => (Cherry.fetchAll l k s).2
  | .push k v, s => (Cherry.push k v s).2
  | .pull k v, s => (Cherry.pull k v s).2

/-- The store after a finite sequence of calls, made one after the other. -/
def run : List Call → Store → Store
  | [], s => s
  | c :: cs, s => run cs (c.exec s)

/-! ## Structural equality decides equality -/

mutual
theorem Value.beq_iff_eq : ∀ a b : Value, Value.beq a b = true ↔ a = b
  | .undefined, b => by cases b <;> simp [Value.beq]
  | .null, b => by cases b <;> simp [Value.beq]
  | .bool x, b => by cases b <;> simp [Value.beq]
  | .num x, b => by cases b <;> simp [Value.beq]
  | .str x, b => by cases b <;> simp [Value.beq]
  | .arr xs, b => by
    cases b <;> simp [Value.beq]
    exact Value.beqList_iff_eq xs _
  | .obj xs, b => by
    cases b <;> simp [Value.beq]
    exact Value.beqFields_iff_eq xs _
theorem Value.beqList_iff_eq : ∀ as bs : List Value, Value.beqList as bs = true ↔ as = bs
  | [], bs => by cases bs <;> simp [Value.beqList]
  | x :: xs, bs => by
    cases bs with
    | nil => simp [Value.beqList]
    | cons y ys => simp [Value.beqList, Value.beq_iff_eq x y, Value.beqList_iff_eq xs ys]
theorem Value.beqFields_iff_eq :
    ∀ as bs : List (String × Value), Value.beqFields as bs = true ↔ as = bs
  | [], bs => by cases bs <;> simp [Value.beqFields]
  | (k, x) :: xs, bs => by
    cases bs with
    | nil => simp [Value.beqFields]
    | cons b ys =>
      obtain ⟨l, y⟩ := b
      simp [Value.beqFields, Value.beq_iff_eq x y, Value.beqFields_iff_eq xs ys, and_assoc]
end

instance : DecidableEq Value := fun a b =>
  if h : Value.beq a b = true then isTrue ((Value.beq_iff_eq a b).1 h)
  else isFalse fun e => h ((Value.beq_iff_eq a b).2 e)

/-! ## The store primitives -/

theorem findOne_key {k : String} {s : Store} {r : Record} (h : findOne k s = some r) :
    r.key = k := by
  induction s with
  | nil => simp [findOne] at h
  | cons x xs ih =>
    by_cases hx : x.key = k
    · simp [findOne, hx] at h
      exact h ▸ hx
    · simp [findOne, hx] at h
      exact ih h

theorem findOne_eq_none_iff (k : String) (s : Store) :
    findOne k s = none ↔ recordCount k s = 0 := by
  induction s with
  | nil => simp [findOne, recordCount]
  | cons x xs ih =>
    by_cases hx : x.key = k
    · simp [findOne, recordCount, hx]
    · simpa [findOne, recordCount, hx] using ih

theorem findOne_update (k : String) (u : Update) (s : Store) :
    findOne k (findOneAndUpdate k u true s)
      = some ⟨k, u.apply ((findOne k s).elim Value.null Record.value)⟩ := by
  induction s with
  | nil => simp [findOne, findOneAndUpdate]
  | cons x xs ih =>
    by_cases hx : x.key = k
    · simp [findOne, findOneAndUpdate, hx]
    · simpa [findOne, findOneAndUpdate, hx] using ih

theorem findOne_update_some (k : String) (u : Update) (b : Bool) (s : Store) (r : Record)
    (h : findOne k s = some r) :
    findOne k (findOneAndUpdate k u b s) = some ⟨k, u.apply r.value⟩ := by
  induction s with
  | nil => simp [findOne] at h
  | cons x xs ih =>
    by_cases hx : x.key = k
    · simp [findOne, hx] at h
      subst h
      simp [findOne, findOneAndUpdate, hx]
    · simp [findOne, hx] at h
      simpa [findOne, findOneAndUpdate, hx] using ih h

theorem findOne_delete (k : String) (s : Store) (h : recordCount k s ≤ 1) :
    findOne k (findOneAndDelete k s) = none := by
  induction s with
  | nil => simp [findOne, findOneAndDelete]
  | cons x xs ih =>
    by_cases hx : x.key = k
    · simp [recordCount, hx] at h
      simpa [findOneAndDelete, hx, findOne_eq_none_iff, recordCount] using h
    · simp [recordCount, hx] at h
      simpa [findOne, findOneAndDelete, hx] using ih (by simpa [recordCount] using h)

theorem findOneAndDelete_none (k : String) (s : Store) (h : recordCount k s = 0) :
    findOneAndDelete k s = s := by
  induction s with
  | nil => rfl
  | cons x xs ih =>
    by_cases hx : x.key = k
    · simp [recordCount, hx] at h
    · simp [recordCount, hx] at h
      simp [findOneAndDelete, hx]
      exact ih (by simpa [recordCount] using h)

/-! ## The facade on a valid key -/

theorem checkKey_str {k : String} (hk : k ≠ "") : checkKey (.str k) = .ok k := by
  simp [checkKey, Value.truthy, hk]

theorem get_str {k : String} (hk : k ≠ "") (s : Store) :
    get (.str k) s = (.ok ((findOne k s).elim Value.null Record.value), s) := by
  unfold get
  rw [checkKey_str hk]
  cases h : findOne k s <;> simp [h]

theorem set_str {k : String} (hk : k ≠ "") (v : Value) (s : Store) :
    set (.str k) v s = (.ok v, findOneAndUpdate k (.set v) true s) := by
  unfold set
  rw [checkKey_str hk]
  simp [get_str hk, findOne_update, Update.apply]

theorem has_str {k : String} (hk : k ≠ "") (s : Store) :
    has (.str k) s = (.ok ((findOne k s).elim Value.null Record.value).truthy, s) := by
  unfold has
  rw [checkKey_str hk]
  simp only [get_str hk]
  split <;> simp_all

theorem delete_str {k : String} (hk : k ≠ "") (s : Store) :
    delete (.str k) s =
      if ((findOne k s).elim Value.null Record.value).truthy
      then (.ok true, findOneAndDelete k s) else (.ok false, s) := by
  unfold delete
  rw [checkKey_str hk]
  simp only [has_str hk]
  split <;> simp_all

/-! ## set, get, has and delete -/

/-- C1: on every store and for every non-empty string key and every value,
`set(key, value)` returns `value`, and the `get(key)` that follows returns
`value` as well, whether or not a record for the key existed before. -/
theorem set_then_get (s : Store) (k : String) (v : Value) (hk : k ≠ "") :
    (set (.str k) v s).1 = .ok v ∧ (get (.str k) (set (.str k) v s).2).1 = .ok v := by
  rw [set_str hk]
  simp [get_str hk, findOne_update, Update.apply]

theorem set_then_get_witness :
    "test" ≠ "" ∧
    (set (.str "test") (.str "hello world") []).1 = .ok (.str "hello world") ∧
    (get (.str "test") (set (.str "test") (.str "hello world") []).2).1
      = .ok (.str "hello world") :=
  ⟨by decide, set_then_get [] "test" (.str "hello world") (by decide)⟩

/-- C2: on a store holding at most one record for the non-empty string key,
when `delete(key)` returns true the `has(key)` that follows returns false; and
when no record exists for the key, `delete(key)` returns false, raises nothing
and leaves the store as it was. -/
theorem delete_then_has (s : Store) (k : String) (hk : k ≠ "") (hu : recordCount k s ≤ 1) :
    ((delete (.str k) s).1 = .ok true → (has (.str k) (delete (.str k) s).2).1 = .ok false) ∧
    (recordCount k s = 0 → delete (.str k) s = (.ok false, s)) := by
  rw [delete_str hk]
  constructor
  · intro h
    split at h
    · rename_i ht
      rw [if_pos ht, has_str hk]
      simp [findOne_delete k s hu, Value.truthy]
    · simp at h
  · intro h0
    simp [(findOne_eq_none_iff k s).2 h0, Value.truthy]

theorem delete_then_has_witness :
    ("a" ≠ "" ∧ recordCount "a" [⟨"a", .num 1⟩] ≤ 1) ∧
    ((delete (.str "a") [⟨"a", .num 1⟩]).1 = .ok true ∧
      (has (.str "a") (delete (.str "a") [⟨"a", .num 1⟩]).2).1 = .ok false) ∧
    (recordCount "a" [] = 0 ∧ delete (.str "a") [] = (.ok false, [])) :=
  ⟨⟨by decide, by decide⟩,
   ⟨rfl, (delete_then_has [⟨"a", .num 1⟩] "a" (by decide) (by decide)).1 rfl⟩,
   ⟨rfl, (delete_then_has [] "a" (by decide) (by decide)).2 rfl⟩⟩

/-- C3, at the failing input: a record exists for `'k'` and holds `0`, yet
`delete('k')` returns false and the record is still in the store. -/
theorem delete_keeps_record_holding_zero :
    recordCount "k" [⟨"k", .num 0⟩] = 1 ∧
    (delete (.str "k") [⟨"k", .num 0⟩]).1 = .ok false ∧
    recordCount "k" (delete (.str "k") [⟨"k", .num 0⟩]).2 = 1 := by
  refine ⟨by decide, rfl, by decide⟩

/-- C4, at the failing input: with `0` stored under `'k'`, `get('k')` returns
`0`, which is neither null nor undefined, and `has('k')` returns false. -/
theorem has_false_on_stored_zero :
    (get (.str "k") [⟨"k", .num 0⟩]).1 = .ok (.num 0) ∧
    Value.num 0 ≠ .null ∧ Value.num 0 ≠ .undefined ∧
    (has (.str "k") [⟨"k", .num 0⟩]).1 = .ok false := by
  refine ⟨rfl, by simp, by simp, rfl⟩

/-! ## add and sub -/

theorem checkNumber_num {v : Int} (hv : v ≠ 0) : checkNumber (.num v) = .ok v := by
  simp [checkNumber, Value.truthy, hv]

theorem add_str {k : String} {v : Int} (hk : k ≠ "") (hv : v ≠ 0) (s : Store) :
    add (.str k) (.num v) s =
      match (findOne k s).elim Value.null Record.value with
      | .num n =>
        if n = 0 then (.ok (.num v), findOneAndUpdate k (.set (.num v)) true s)
        else (.ok (.num (n + v)), findOneAndUpdate k (.set (.num (n + v))) true s)
      | d =>
        if d.truthy then (.error ⟨"Value must be a number", "error"⟩, s)
        else (.ok (.num v), findOneAndUpdate k (.set (.num v)) true s) := by
  unfold add
  rw [checkKey_str hk, checkNumber_num hv]
  simp only [get_str hk, set_str hk]
  cases (findOne k s).elim Value.null Record.value with
  | undefined => simp [Value.truthy]
  | null => simp [Value.truthy]
  | bool b => cases b <;> simp [Value.truthy, rethrow]
  | num n => by_cases hn : n = 0 <;> simp [Value.truthy, hn]
  | str t => by_cases ht : t = "" <;> simp [Value.truthy, rethrow, ht]
  | arr a => simp [Value.truthy, rethrow]
  | obj o => simp [Value.truthy, rethrow]

theorem sub_str {k : String} {v : Int} (hk : k ≠ "") (hv : v ≠ 0) (s : Store) :
    sub (.str k) (.num v) s =
      match (findOne k s).elim Value.null Record.value with
      | .num n =>
        if n = 0 then (.ok (.num v), findOneAndUpdate k (.set (.num v)) true s)
        else (.ok (.num (n - v)), findOneAndUpdate k (.set (.num (n - v))) true s)
      | d =>
        if d.truthy then (.error ⟨"Value must be a number", "error"⟩, s)
        else (.ok (.num v), findOneAndUpdate k (.set (.num v)) true s) := by
  unfold sub
  rw [checkKey_str hk, checkNumber_num hv]
  simp only [get_str hk, set_str hk]
  cases (findOne k s).elim Value.null Record.value with
  | undefined => simp [Value.truthy]
  | null => simp [Value.truthy]
  | bool b => cases b <;> simp [Value.truthy, rethrow]
  | num n => by_cases hn : n = 0 <;> simp [Value.truthy, hn]
  | str t => by_cases ht : t = "" <;> simp [Value.truthy, rethrow, ht]
  | arr a => simp [Value.truthy, rethrow]
  | obj o => simp [Value.truthy, rethrow]

/-- C5: for a non-empty string key and a number `v` that `add` accepts
(non-zero): when no record exists for the key, `add(key, v)` returns `v` and
stores `v` under the key; when the record for the key holds the number `n`,
`add(key, v)` returns `n + v` and the `get(key)` that follows returns `n + v`. -/
theorem add_spec (s : Store) (k : String) (v : Int) (hk : k ≠ "") (hv : v ≠ 0) :
    (recordCount k s = 0 →
      (add (.str k) (.num v) s).1 = .ok (.num v) ∧
      findOne k (add (.str k) (.num v) s).2 = some ⟨k, .num v⟩) ∧
    (∀ n : Int, (findOne k s).map Record.value = some (.num n) →
      (add (.str k) (.num v) s).1 = .ok (.num (n + v)) ∧
      (get (.str k) (add (.str k) (.num v) s).2).1 = .ok (.num (n + v))) := by
  rw [add_str hk hv]
  constructor
  · intro h0
    simp [(findOne_eq_none_iff k s).2 h0, Value.truthy, findOne_update, Update.apply]
  · intro n hn
    cases hr : findOne k s with
    | none => simp [hr] at hn
    | some r =>
      have hval : r.value = .num n := by simpa [hr] using hn
      by_cases h0 : n = 0 <;>
        simp [hval, h0, get_str hk, findOne_update, Update.apply]

theorem add_spec_witness :
    ("n" ≠ "" ∧ (5 : Int) ≠ 0) ∧
    (add (.str "n") (.num 5) []).1 = .ok (.num 5) ∧
    (add (.str "n") (.num 5) [⟨"n", .num 10⟩]).1 = .ok (.num 15) ∧
    (get (.str "n") (add (.str "n") (.num 5) [⟨"n", .num 10⟩]).2).1 = .ok (.num 15) :=
  ⟨⟨by decide, by decide⟩,
   ((add_spec [] "n" 5 (by decide) (by decide)).1 rfl).1,
   (add_spec [⟨"n", .num 10⟩] "n" 5 (by decide) (by decide)).2 10 rfl⟩

/-- C6, at the failing input: the record for `'m'` holds the number `0`, and
`sub('m', 3)` returns `3` and leaves `3` stored, where `0 - 3 = -3` is due. -/
theorem sub_on_stored_zero :
    (findOne "m" [⟨"m", .num 0⟩]).map Record.value = some (.num 0) ∧
    (sub (.str "m") (.num 3) [⟨"m", .num 0⟩]).1 = .ok (.num 3) ∧
    (get (.str "m") (sub (.str "m") (.num 3) [⟨"m", .num 0⟩]).2).1 = .ok (.num 3) ∧
    Value.num 3 ≠ .num (0 - 3) := by
  refine ⟨rfl, rfl, rfl, by simp⟩

/-- C7: for a non-empty string key with no record and a number `v` that `sub`
accepts (non-zero), `sub(key, v)` is `set(key, v)`: it returns `v` and stores
`v`, not `-v`, under the key. -/
theorem sub_absent (s : Store) (k : String) (v : Int) (hk : k ≠ "") (hv : v ≠ 0)
    (h0 : recordCount k s = 0) :
    sub (.str k) (.num v) s = set (.str k) (.num v) s ∧
    (sub (.str k) (.num v) s).1 = .ok (.num v) ∧
    findOne k (sub (.str k) (.num v) s).2 = some ⟨k, .num v⟩ := by
  rw [sub_str hk hv, set_str hk]
  simp [(findOne_eq_none_iff k s).2 h0, Value.truthy, findOne_update, Update.apply]

theorem sub_absent_witness :
    ("m" ≠ "" ∧ (3 : Int) ≠ 0 ∧ recordCount "m" [] = 0) ∧
    sub (.str "m") (.num 3) [] = set (.str "m") (.num 3) [] ∧
    (sub (.str "m") (.num 3) []).1 = .ok (.num 3) ∧
    findOne "m" (sub (.str "m") (.num 3) []).2 = some ⟨"m", .num 3⟩ :=
  ⟨⟨by decide, by decide, rfl⟩, sub_absent [] "m" 3 (by decide) (by decide) rfl⟩

/-! ## push and pull -/

theorem findOne_value_some {k : String} {s : Store} {x : Value}
    (h : (findOne k s).map Record.value = some x) :
    ∃ r, findOne k s = some r ∧ r.value = x := by
  cases hr : findOne k s with
  | none => simp [hr] at h
  | some r => exact ⟨r, rfl, by simpa [hr] using h⟩

/-- C8: for a non-empty string key and a value that `push` accepts (truthy):
when no record exists for the key, `push(key, value)` stores and returns the
one-element array `[value]`, also when `value` is an array; when the record for
the key holds the array `a`, it stores and returns `a ++ value` if `value` is
an array and `a ++ [value]` otherwise. -/
theorem push_spec (s : Store) (k : String) (value : Value) (hk : k ≠ "")
    (hv : value.truthy = true) :
    (recordCount k s = 0 →
      (push (.str k) value s).1 = .ok (.arr [value]) ∧
      findOne k (push (.str k) value s).2 = some ⟨k, .arr [value]⟩) ∧
    (∀ a : List Value, (findOne k s).map Record.value = some (.arr a) →
      (∀ vs : List Value, value = .arr vs →
        (push (.str k) value s).1 = .ok (.arr (a ++ vs)) ∧
        findOne k (push (.str k) value s).2 = some ⟨k, .arr (a ++ vs)⟩) ∧
      (value.isArray = false →
        (push (.str k) value s).1 = .ok (.arr (a ++ [value])) ∧
        findOne k (push (.str k) value s).2 = some ⟨k, .arr (a ++ [value])⟩)) := by
  unfold push
  rw [checkKey_str hk]
  simp only [hv, get_str hk, set_str hk]
  refine ⟨?_, ?_⟩
  · intro h0
    simp [(findOne_eq_none_iff k s).2 h0, Value.truthy, findOne_update, Update.apply]
  · intro a ha
    obtain ⟨r, hr, hval⟩ := findOne_value_some ha
    refine ⟨?_, ?_⟩
    · intro vs hvs
      subst hvs
      simp [hr, hval, Value.truthy, findOne_update, Update.apply]
    · intro hna
      cases value <;>
        simp_all [Value.truthy, Value.isArray, findOne_update, Update.apply]

theorem push_spec_witness :
    ("list" ≠ "" ∧ (Value.str "a").truthy = true) ∧
    (push (.str "list") (.str "a") []).1 = .ok (.arr [.str "a"]) ∧
    (push (.str "list") (.arr [.str "b", .str "c"]) [⟨"list", .arr [.str "a"]⟩]).1
      = .ok (.arr [.str "a", .str "b", .str "c"]) ∧
    (push (.str "list2") (.arr [.str "x", .str "y"]) []).1
      = .ok (.arr [.arr [.str "x", .str "y"]]) :=
  ⟨⟨by decide, rfl⟩,
   ((push_spec [] "list" (.str "a") (by decide) rfl).1 rfl).1,
   (((push_spec [⟨"list", .arr [.str "a"]⟩] "list" (.arr [.str "b", .str "c"])
      (by decide) rfl).2 [.str "a"] rfl).1 [.str "b", .str "c"] rfl).1,
   ((push_spec [] "list2" (.arr [.str "x", .str "y"]) (by decide) rfl).1 rfl).1⟩

theorem any_beq_eq (vs : List Value) (x : Value) :
    (vs.any fun v => Value.beq x v) = decide (x ∈ vs) := by
  induction vs with
  | nil => simp
  | cons v vs ih =>
    have hb : Value.beq x v = decide (x = v) := by
      by_cases h : x = v
      · simp [h, (Value.beq_iff_eq v v).2 rfl]
      · have : Value.beq x v ≠ true := fun e => h ((Value.beq_iff_eq x v).1 e)
        simp [h, this]
    simp [List.any_cons, ih, hb]

theorem pull_apply (vs : List Value) (a : List Value) :
    (Update.pull vs).apply (.arr a) = .arr (a.filter fun x => decide (x ∉ vs)) := by
  simp [Update.apply, any_beq_eq]

theorem findOne_pullEach (k : String) (vs : List Value) :
    ∀ (s : Store) (a : List Value), (findOne k s).map Record.value = some (.arr a) →
      (findOne k (pullEach k vs s)).map Record.value
        = some (.arr (a.filter fun x => decide (x ∉ vs))) := by
  induction vs with
  | nil => intro s a h; simpa [pullEach] using h
  | cons v vs ih =>
    intro s a h
    obtain ⟨r, hr, hval⟩ := findOne_value_some h
    have h1 : (findOne k (findOneAndUpdate k (.pull [v]) false s)).map Record.value
        = some (.arr (a.filter fun x => decide (x ∉ [v]))) := by
      rw [findOne_update_some k _ false s r hr, hval, pull_apply]
      rfl
    have h2 := ih _ _ h1
    rw [pullEach, h2]
    simp [List.filter_filter, not_or, Bool.and_comm]

/-- C9: for a non-empty string key and a value that `pull` accepts (truthy):
when no record exists for the key, `pull(key, value)` returns null; when the
record for the key holds the array `a`, it returns, and leaves stored, `a`
without the elements equal to `value` if `value` is not an array, and `a`
without the elements equal to some element of `value` if it is, the elements
that remain keeping their order. -/
theorem pull_spec (s : Store) (k : String) (value : Value) (hk : k ≠ "")
    (hv : value.truthy = true) :
    (recordCount k s = 0 → pull (.str k) value s = (.ok .null, s)) ∧
    (∀ a : List Value, (findOne k s).map Record.value = some (.arr a) →
      (value.isArray = false →
        (pull (.str k) value s).1 = .ok (.arr (a.filter fun x => decide (x ≠ value))) ∧
        (findOne k (pull (.str k) value s).2).map Record.value
          = some (.arr (a.filter fun x => decide (x ≠ value)))) ∧
      (∀ vs : List Value, value = .arr vs →
        (pull (.str k) value s).1 = .ok (.arr (a.filter fun x => decide (x ∉ vs))) ∧
        (findOne k (pull (.str k) value s).2).map Record.value
          = some (.arr (a.filter fun x => decide (x ∉ vs))))) := by
  unfold pull
  rw [checkKey_str hk]
  simp only [hv, get_str hk]
  refine ⟨?_, ?_⟩
  · intro h0
    simp [(findOne_eq_none_iff k s).2 h0, Value.truthy]
  · intro a ha
    obtain ⟨r, hr, hval⟩ := findOne_value_some ha
    refine ⟨?_, ?_⟩
    · intro hna
      have h1 : findOne k (findOneAndUpdate k (.pull [value]) false s)
          = some ⟨k, .arr (a.filter fun x => decide (x ≠ value))⟩ := by
        rw [findOne_update_some k _ false s r hr, hval, pull_apply]
        simp
      cases value <;>
        simp_all [Value.truthy, Value.isArray]
    · intro vs hvs
      subst hvs
      have h1 := findOne_pullEach k vs s a ha
      obtain ⟨r1, hr1, hval1⟩ := findOne_value_some h1
      simp [hr, hval, Value.truthy, Value.isArray, hr1, hval1]

theorem pull_spec_witness :
    ("list" ≠ "" ∧ (Value.str "a").truthy = true) ∧
    pull (.str "list") (.str "a") [] = (.ok .null, []) ∧
    (pull (.str "list") (.str "a") [⟨"list", .arr [.str "a", .str "b", .str "a"]⟩]).1
      = .ok (.arr [.str "b"]) ∧
    (pull (.str "list") (.arr [.str "a", .str "c"])
        [⟨"list", .arr [.str "a", .str "b", .str "c", .str "a"]⟩]).1
      = .ok (.arr [.str "b"]) :=
  ⟨⟨by decide, rfl⟩,
   (pull_spec [] "list" (.str "a") (by decide) rfl).1 rfl,
   (((pull_spec [⟨"list", .arr [.str "a", .str "b", .str "a"]⟩] "list" (.str "a")
      (by decide) rfl).2 [.str "a", .str "b", .str "a"] rfl).1 rfl).1,
   (((pull_spec [⟨"list", .arr [.str "a", .str "b", .str "c", .str "a"]⟩] "list"
      (.arr [.str "a", .str "c"]) (by decide) rfl).2
      [.str "a", .str "b", .str "c", .str "a"] rfl).2 [.str "a", .str "c"] rfl).1⟩

/-! ## What a call can do to the store -/

theorem get_snd (key : Value) (s : Store) : (get key s).2 = s := by
  unfold get
  split
  · rfl
  · split <;> rfl

theorem set_preserves (P : Store → Prop)
    (hU : ∀ k u b s, P s → P (findOneAndUpdate k u b s))
    (key v : Value) (s : Store) (h : P s) : P (set key v s).2 := by
  unfold set
  split
  · exact h
  · simp only
    split <;> rename_i heq <;>
    · have hs := congrArg Prod.snd heq
      simp only [get_snd] at hs
      subst hs
      exact hU _ _ _ _ h

theorem has_snd (key : Value) (s : Store) : (has key s).2 = s := by
  unfold has
  split
  · rfl
  · split <;> rename_i heq <;>
    · have hs := congrArg Prod.snd heq
      simp only [get_snd] at hs
      subst hs
      first | rfl | (split <;> rfl)

theorem fetch_snd (key : Value) (s : Store) : (fetch key s).2 = s := by
  unfold fetch
  split
  · rfl
  · split <;> rename_i heq <;>
    · have hs := congrArg Prod.snd heq
      simp only [get_snd] at hs
      subst hs
      rfl

theorem type_snd (key : Value) (s : Store) : (type key s).2 = s := by
  unfold type
  split
  · rfl
  · split <;> rename_i heq <;>
    · have hs := congrArg Prod.snd heq
      simp only [get_snd] at hs
      subst hs
      first | rfl | (split <;> rfl)

theorem all_snd (limit skip : Value) (s : Store) : (all limit skip s).2 = s := by
  unfold all
  split
  · rfl
  · split <;> rfl

theorem fetchAll_snd (limit skip : Value) (s : Store) : (fetchAll limit skip s).2 = s := by
  unfold fetchAll
  split
  · rfl
  · split
    · rfl
    · split <;> rename_i heq <;>
      · have hs := congrArg Prod.snd heq
        simp only [all_snd] at hs
        subst hs
        rfl

theorem delete_preserves (P : Store → Prop)
    (hD : ∀ k s, P s → P (findOneAndDelete k s))
    (key : Value) (s : Store) (h : P s) : P (delete key s).2 := by
  unfold delete
  split
  · exact h
  · split <;> rename_i heq <;>
    · have hs := congrArg Prod.snd heq
      simp only [has_snd] at hs
      subst hs
      first | exact h | (split <;> first | exact h | exact hD _ _ h)

theorem add_preserves (P : Store → Prop)
    (hU : ∀ k u b s, P s → P (findOneAndUpdate k u b s))
    (key v : Value) (s : Store) (h : P s) : P (add key v s).2 := by
  unfold add
  split
  · exact h
  · split
    · exact h
    · split <;> rename_i heq <;>
      · have hs := congrArg Prod.snd heq
        simp only [get_snd] at hs
        subst hs
        first
          | exact h
          | (split
             · split <;> rename_i hq <;>
               · have ht := congrArg Prod.snd hq
                 simp only at ht
                 rw [← ht]
                 exact set_preserves P hU _ _ _ h
             · split
               · simp only
                 split <;> rename_i hq <;>
                 · have ht := congrArg Prod.snd hq
                   simp only at ht
                   rw [← ht]
                   exact set_preserves P hU _ _ _ h
               · exact h)

theorem sub_preserves (P : Store → Prop)
    (hU : ∀ k u b s, P s → P (findOneAndUpdate k u b s))
    (key v : Value) (s : Store) (h : P s) : P (sub key v s).2 := by
  unfold sub
  split
  · exact h
  · split
    · exact h
    · split <;> rename_i heq <;>
      · have hs := congrArg Prod.snd heq
        simp only [get_snd] at hs
        subst hs
        first
          | exact h
          | (split
             · split <;> rename_i hq <;>
               · have ht := congrArg Prod.snd hq
                 simp only at ht
                 rw [← ht]
                 exact set_preserves P hU _ _ _ h
             · split
               · simp only
                 split <;> rename_i hq <;>
                 · have ht := congrArg Prod.snd hq
                   simp only at ht
                   rw [← ht]
                   exact set_preserves P hU _ _ _ h
               · exact h)

theorem inc_preserves (P : Store → Prop)
    (hU : ∀ k u b s, P s → P (findOneAndUpdate k u b s))
    (key v : Value) (s : Store) (h : P s) : P (inc key v s).2 := by
  unfold inc
  split <;> rename_i heq <;>
  · have hs := congrArg Prod.snd heq
    simp only at hs
    rw [← hs]
    exact add_preserves P hU _ _ _ h

theorem dec_preserves (P : Store → Prop)
    (hU : ∀ k u b s, P s → P (findOneAndUpdate k u b s))
    (key v : Value) (s : Store) (h : P s) : P (dec key v s).2 := by
  unfold dec
  split <;> rename_i heq <;>
  · have hs := congrArg Prod.snd heq
    simp only at hs
    rw [← hs]
    exact sub_preserves P hU _ _ _ h

theorem push_preserves (P : Store → Prop)
    (hU : ∀ k u b s, P s → P (findOneAndUpdate k u b s))
    (key v : Value) (s : Store) (h : P s) : P (push key v s).2 := by
  unfold push
  split
  · exact h
  · split
    · exact h
    · split <;> rename_i heq <;>
      · have hs := congrArg Prod.snd heq
        simp only [get_snd] at hs
        subst hs
        first
          | exact h
          | (split
             · split <;> rename_i hq <;>
               · have ht := congrArg Prod.snd hq
                 simp only at ht
                 rw [← ht]
                 exact set_preserves P hU _ _ _ h
             · split
               · simp only
                 split <;> rename_i hq <;>
                 · have ht := congrArg Prod.snd hq
                   simp only at ht
                   rw [← ht]
                   exact set_preserves P hU _ _ _ h
               · exact h)

theorem pullEach_preserves (P : Store → Prop)
    (hU : ∀ k u b s, P s → P (findOneAndUpdate k u b s))
    (k : String) (vs : List Value) : ∀ s : Store, P s → P (pullEach k vs s) := by
  induction vs with
  | nil => intro s h; exact h
  | cons v vs ih => intro s h; exact ih _ (hU _ _ _ _ h)

theorem pull_preserves (P : Store → Prop)
    (hU : ∀ k u b s, P s → P (findOneAndUpdate k u b s))
    (key v : Value) (s : Store) (h : P s) : P (pull key v s).2 := by
  unfold pull
  split
  · exact h
  · split
    · exact h
    · split <;> rename_i heq <;>
      · have hs := congrArg Prod.snd heq
        simp only [get_snd] at hs
        subst hs
        first
          | exact h
          | (split
             · exact h
             · split
               · exact h
               · simp only
                 split <;> rename_i hq <;>
                 · have ht := congrArg Prod.snd hq
                   simp only [get_snd] at ht
                   rw [← ht]
                   split
                   · exact pullEach_preserves P hU _ _ _ h
                   · exact hU _ _ _ _ h)

theorem exec_preserves (P : Store → Prop)
    (hU : ∀ k u b s, P s → P (findOneAndUpdate k u b s))
    (hD : ∀ k s, P s → P (findOneAndDelete k s))
    (c : Call) (s : Store) (h : P s) : P (c.exec s) := by
  cases c with
  | set k v => exact set_preserves P hU k v s h
  | get k => simpa [Call.exec, get_snd] using h
  | fetch k => simpa [Call.exec, fetch_snd] using h
  | delete k => exact delete_preserves P hD k s h
  | has k => simpa [Call.exec, has_snd] using h
  | type k => simpa [Call.exec, type_snd] using h
  | add k v => exact add_preserves P hU k v s h
  | sub k v => exact sub_preserves P hU k v s h
  | inc k v => exact inc_preserves P hU k v s h
  | dec k v => exact dec_preserves P hU k v s h
  | all l k => simpa [Call.exec, all_snd] using h
  | fetchAll l k => simpa [Call.exec, fetchAll_snd] using h
  | push k v => exact push_preserves P hU k v s h
  | pull k v => exact pull_preserves P hU k v s h

theorem run_preserves (P : Store → Prop)
    (hU : ∀ k u b s, P s → P (findOneAndUpdate k u b s))
    (hD : ∀ k s, P s → P (findOneAndDelete k s))
    (cs : List Call) : ∀ s : Store, P s → P (run cs s) := by
  induction cs with
  | nil => intro s h; exact h
  | cons c cs ih => intro s h; exact ih _ (exec_preserves P hU hD c s h)

/-! ## The primitives keep keys unique -/

theorem recordCount_update_other (k j : String) (u : Update) (b : Bool) (s : Store)
    (hj : k ≠ j) : recordCount j (findOneAndUpdate k u b s) = recordCount j s := by
  induction s with
  | nil => cases b <;> simp [findOneAndUpdate, recordCount, hj]
  | cons r rs ih =>
    by_cases hr : r.key = k
    · simp [findOneAndUpdate, recordCount, hr, List.countP_cons, hj]
    · simp only [recordCount] at ih
      simp [findOneAndUpdate, recordCount, hr, List.countP_cons, ih]

theorem recordCount_update_same (k : String) (u : Update) (b : Bool) (s : Store) :
    recordCount k (findOneAndUpdate k u b s) ≤ max (recordCount k s) 1 := by
  induction s with
  | nil => cases b <;> simp [findOneAndUpdate, recordCount]
  | cons r rs ih =>
    by_cases hr : r.key = k
    · simp [findOneAndUpdate, recordCount, hr]
    · simp only [recordCount] at ih
      simpa [findOneAndUpdate, recordCount, hr, List.countP_cons] using ih

theorem recordCount_delete (k j : String) (s : Store) :
    recordCount j (findOneAndDelete k s) ≤ recordCount j s := by
  induction s with
  | nil => simp [findOneAndDelete]
  | cons r rs ih =>
    by_cases hr : r.key = k
    · simp only [findOneAndDelete, hr, if_true, recordCount, List.countP_cons]
      omega
    · simp only [recordCount] at ih
      simp only [findOneAndDelete, hr, if_false, recordCount, List.countP_cons]
      omega

/-! ## The uniqueness invariant -/

/-- C10: in every store reached from the empty store by a finite sequence of
facade calls (with any arguments, valid or not), at most one record exists for
any given key. -/
theorem unique_keys_reachable (cs : List Call) (k : String) :
    recordCount k (run cs []) ≤ 1 := by
  have hinv : ∀ j, recordCount j (run cs []) ≤ 1 := by
    refine run_preserves (fun s => ∀ j, recordCount j s ≤ 1) ?_ ?_ cs [] ?_
    · intro k u b s h j
      by_cases hj : k = j
      · subst hj
        exact le_trans (recordCount_update_same k u b s) (max_le (h k) le_rfl)
      · rw [recordCount_update_other k j u b s hj]
        exact h j
    · intro k s h j
      exact le_trans (recordCount_delete k j s) (h j)
    · intro j
      simp [recordCount]
  exact hinv k

/-! ## Invalid keys -/

theorem checkKey_invalid (key : Value) (hkey : key.typeof ≠ "string" ∨ key = .str "") :
    ∃ e, checkKey key = .error e ∧ rethrow e = e ∧
      (e.message = "key is required" ∨ e.message = "key must be a string") := by
  cases key with
  | undefined => exact ⟨⟨"key is required", "error"⟩, rfl, rfl, Or.inl rfl⟩
  | null => exact ⟨⟨"key is required", "error"⟩, rfl, rfl, Or.inl rfl⟩
  | bool b =>
    cases b
    · exact ⟨⟨"key is required", "error"⟩, rfl, rfl, Or.inl rfl⟩
    · exact ⟨⟨"key must be a string", "error"⟩, rfl, rfl, Or.inr rfl⟩
  | num n =>
    by_cases hn : n = 0
    · exact ⟨⟨"key is required", "error"⟩, by simp [checkKey, Value.truthy, hn], rfl, Or.inl rfl⟩
    · exact ⟨⟨"key must be a string", "error"⟩, by simp [checkKey, Value.truthy, hn], rfl,
        Or.inr rfl⟩
  | str t =>
    have ht : t = "" := by
      rcases hkey with h | h
      · exact absurd rfl h
      · simpa using h
    subst ht
    exact ⟨⟨"key is required", "error"⟩, rfl, rfl, Or.inl rfl⟩
  | arr a => exact ⟨⟨"key must be a string", "error"⟩, rfl, rfl, Or.inr rfl⟩
  | obj o => exact ⟨⟨"key must be a string", "error"⟩, rfl, rfl, Or.inr rfl⟩

/-- C11: when the key argument is not a string (a missing key is `undefined`)
or is the empty string, each of the twelve keyed operations raises the error of
the key guards, `key is required` or `key must be a string`; the error is the
same whatever the store holds, and the store after the call is the store
before it. -/
theorem invalid_key_fails (key value : Value)
    (hkey : key.typeof ≠ "string" ∨ key = .str "") :
    ∃ e : CherryError,
      (e.message = "key is required" ∨ e.message = "key must be a string") ∧
      ∀ s : Store,
        set key value s = (.error e, s) ∧ get key s = (.error e, s) ∧
        fetch key s = (.error e, s) ∧ has key s = (.error e, s) ∧
        delete key s = (.error e, s) ∧ type key s = (.error e, s) ∧
        add key value s = (.error e, s) ∧ sub key value s = (.error e, s) ∧
        inc key value s = (.error e, s) ∧ dec key value s = (.error e, s) ∧
        push key value s = (.error e, s) ∧ pull key value s = (.error e, s) := by
  obtain ⟨e, hck, hre, hmsg⟩ := checkKey_invalid key hkey
  refine ⟨e, hmsg, fun s => ?_⟩
  have hadd : add key value s = (.error e, s) := by simp [add, hck]
  have hsub : sub key value s = (.error e, s) := by simp [sub, hck]
  refine ⟨?_, ?_, ?_, ?_, ?_, ?_, hadd, hsub, ?_, ?_, ?_, ?_⟩
  · simp [set, hck]
  · simp [get, hck]
  · simp [fetch, hck]
  · simp [has, hck]
  · simp [delete, hck]
  · simp [type, hck]
  · simp [inc, hadd, hre]
  · simp [dec, hsub, hre]
  · simp [push, hck]
  · simp [pull, hck]

theorem invalid_key_fails_witness :
    ((Value.num 7).typeof ≠ "string" ∨ Value.num 7 = .str "") ∧
    ∃ e : CherryError,
      (e.message = "key is required" ∨ e.message = "key must be a string") ∧
      ∀ s : Store,
        set (.num 7) (.num 1) s = (.error e, s) ∧ get (.num 7) s = (.error e, s) ∧
        fetch (.num 7) s = (.error e, s) ∧ has (.num 7) s = (.error e, s) ∧
        delete (.num 7) s = (.error e, s) ∧ type (.num 7) s = (.error e, s) ∧
        add (.num 7) (.num 1) s = (.error e, s) ∧ sub (.num 7) (.num 1) s = (.error e, s) ∧
        inc (.num 7) (.num 1) s = (.error e, s) ∧ dec (.num 7) (.num 1) s = (.error e, s) ∧
        push (.num 7) (.num 1) s = (.error e, s) ∧ pull (.num 7) (.num 1) s = (.error e, s) :=
  ⟨Or.inl (by decide), invalid_key_fails (.num 7) (.num 1) (Or.inl (by decide))⟩

/-! ## add and sub on a value that is not a number -/

theorem add_sub_fail_on_truthy_non_number (s : Store) (k : String) (v : Int) (d : Value)
    (hk : k ≠ "") (hv : v ≠ 0) (hd : (findOne k s).map Record.value = some d)
    (ht : d.truthy = true) (hn : d.typeof ≠ "number") :
    add (.str k) (.num v) s = (.error ⟨"Value must be a number", "error"⟩, s) ∧
    sub (.str k) (.num v) s = (.error ⟨"Value must be a number", "error"⟩, s) := by
  obtain ⟨r, hr, hval⟩ := findOne_value_some hd
  rw [add_str hk hv, sub_str hk hv]
  cases d <;> simp_all [Value.typeof]

/-- C12, at the failing input: the record for `'k'` holds the boolean `false`
(or the empty string), which is not a number, and `add('k', 5)` and
`sub('k', 5)` raise nothing: each returns `5` and leaves `5` stored. -/
theorem add_sub_overwrite_stored_false :
    (Value.bool false).typeof ≠ "number" ∧ (Value.str "").typeof ≠ "number" ∧
    add (.str "k") (.num 5) [⟨"k", .bool false⟩] = (.ok (.num 5), [⟨"k", .num 5⟩]) ∧
    sub (.str "k") (.num 5) [⟨"k", .bool false⟩] = (.ok (.num 5), [⟨"k", .num 5⟩]) ∧
    add (.str "k") (.num 5) [⟨"k", .str ""⟩] = (.ok (.num 5), [⟨"k", .num 5⟩]) ∧
    sub (.str "k") (.num 5) [⟨"k", .str ""⟩] = (.ok (.num 5), [⟨"k", .num 5⟩]) := by
  refine ⟨by decide, by decide, rfl, rfl, rfl, rfl⟩

/-! ## all and fetchAll -/

theorem checkPage_error (name : String) (v : Value)
    (h : v.truthy = true ∧ v.typeof ≠ "number") :
    checkPage name v = .error ⟨name ++ " must be a number", "error"⟩ := by
  simp [checkPage, h.1, h.2]

theorem checkPage_ok (name : String) (v : Value)
    (h : v = .undefined ∨ v.typeof = "number") : checkPage name v = .ok () := by
  rcases h with h | h
  · subst h
    simp [checkPage, Value.truthy]
  · simp [checkPage, h]

theorem checkPage_cases (name : String) (v : Value) :
    checkPage name v = .ok () ∨
      checkPage name v = .error ⟨name ++ " must be a number", "error"⟩ := by
  unfold checkPage
  split
  · exact Or.inr rfl
  · exact Or.inl rfl

/-- C13, counterexample: a limit that is the empty string is provided and is
not a number, and neither `all` nor `fetchAll` raises: both return the listing
of the store. -/
theorem all_accepts_empty_string_limit :
    (Value.str "").typeof ≠ "number" ∧
    all (.str "") .undefined [⟨"a", .num 1⟩] = (.ok [⟨"a", .num 1⟩], [⟨"a", .num 1⟩]) ∧
    fetchAll (.str "") .undefined [⟨"a", .num 1⟩]
      = (.ok [⟨"a", .num 1⟩], [⟨"a", .num 1⟩]) := by
  refine ⟨by decide, rfl, rfl⟩

/-- C13, amended: when the limit or the skip is a truthy value that is not a
number, `all` and `fetchAll` raise the validation error `$limit must be a
number` or `$skip must be a number` and leave the store alone; when each of the
two is absent or a number, both return the listing of the store unchanged. -/
theorem all_validation (limit skip : Value) (s : Store) :
    ((limit.truthy = true ∧ limit.typeof ≠ "number") ∨
        (skip.truthy = true ∧ skip.typeof ≠ "number") →
      ∃ e : CherryError,
        (e.message = "$limit must be a number" ∨ e.message = "$skip must be a number") ∧
        all limit skip s = (.error e, s) ∧ fetchAll limit skip s = (.error e, s)) ∧
    ((limit = .undefined ∨ limit.typeof = "number") →
      (skip = .undefined ∨ skip.typeof = "number") →
      all limit skip s = (.ok (allRows limit skip s), s) ∧
      fetchAll limit skip s = (.ok (allRows limit skip s), s)) := by
  constructor
  · intro h
    rcases checkPage_cases "$limit" limit with hl | hl
    · have hs : skip.truthy = true ∧ skip.typeof ≠ "number" := by
        rcases h with h | h
        · rw [checkPage_error "$limit" limit h] at hl
          cases hl
        · exact h
      have hs2 := checkPage_error "$skip" skip hs
      exact ⟨⟨"$skip must be a number", "error"⟩, Or.inr rfl,
        by simp [all, hl, hs2], by simp [fetchAll, hl, hs2]⟩
    · exact ⟨⟨"$limit must be a number", "error"⟩, Or.inl rfl,
        by simp [all, hl], by simp [fetchAll, hl]⟩
  · intro hl hs
    have h1 := checkPage_ok "$limit" limit hl
    have h2 := checkPage_ok "$skip" skip hs
    have ha : all limit skip s = (.ok (allRows limit skip s), s) := by simp [all, h1, h2]
    exact ⟨ha, by simp [fetchAll, h1, h2, ha]⟩

theorem all_validation_witness :
    ((Value.str "x").truthy = true ∧ (Value.str "x").typeof ≠ "number") ∧
    (∃ e : CherryError,
      (e.message = "$limit must be a number" ∨ e.message = "$skip must be a number") ∧
      all (.str "x") .undefined [⟨"a", .num 1⟩] = (.error e, [⟨"a", .num 1⟩]) ∧
      fetchAll (.str "x") .undefined [⟨"a", .num 1⟩] = (.error e, [⟨"a", .num 1⟩])) ∧
    all (.num 2) .undefined [⟨"a", .num 1⟩, ⟨"b", .num 2⟩, ⟨"c", .num 3⟩]
      = (.ok [⟨"a", .num 1⟩, ⟨"b", .num 2⟩],
          [⟨"a", .num 1⟩, ⟨"b", .num 2⟩, ⟨"c", .num 3⟩]) :=
  ⟨⟨rfl, by decide⟩,
   (all_validation (.str "x") .undefined [⟨"a", .num 1⟩]).1 (Or.inl ⟨rfl, by decide⟩),
   ((all_validation (.num 2) .undefined [⟨"a", .num 1⟩, ⟨"b", .num 2⟩, ⟨"c", .num 3⟩]).2
      (Or.inr rfl) (Or.inl rfl)).1⟩

end Cherry
